import Mathlib

/-!
Verification of the KnightVision backend game routes
(`backend/app/api/routes/game.py`) against the project specification.

The annotation pipeline of `game.py` is embedded shallowly:

* Evaluations are modelled over `ℚ` (the source manipulates Python floats;
  all threshold constants of `classify_move` and all arithmetic the claims
  exercise are exact decimal fractions).
* The python-chess library, the Stockfish evaluation service and the Supabase
  persistence layer are external collaborators; they are modelled as abstract
  interfaces/oracles (`ChessLib`, `Env`).  The only law assumed about the
  chess library is that pushing a move flips the side to move, which
  `chess.Board.push` always does.
* Fallible collaborator calls (engine evaluation, database inserts/updates)
  are modelled with explicit failure oracles; a raised Python exception
  becomes an `Except.error` carrying a `PyErr` value.
* FastAPI's `HTTPException` is a subclass of `Exception`, so the blanket
  `except Exception` at the end of `annotate_game` catches the route's own
  404/403/400 raises and re-wraps them as status 500.  The embedding models
  this wrapping faithfully.
-/

set_option maxHeartbeats 1000000

namespace KnightVision

/-- Move classification, translated from `classify_move` in `game.py`
(lines 414-435).  The source compares a Python float against the literals
`-2.0`, `-1.0`, `-0.5`, `0.1`, `0.5`; these are written here as the exact
rationals `-2`, `-1`, `-(1/2)`, `1/10`, `1/2`. -/
def classify_move (evaluation_change : ℚ) : String :=
  if evaluation_change < -2 then "blunder"
  else if evaluation_change < -1 then "mistake"
  else if evaluation_change < -(1/2) then "inaccuracy"
  else if evaluation_change < 1/10 then "good"
  else if evaluation_change < 1/2 then "great"
  else "excellent"

/-- Modelled from the spec's threshold table in §4.3: each row is written with
both of its interval bounds, in the spec's order (first match wins); the final
row of the table is `>= 0.5 → excellent`, which is exactly the residual case
of the earlier rows. -/
def classifySpecTable (x : ℚ) : String :=
  if x < -2 then "blunder"
  else if -2 ≤ x ∧ x < -1 then "mistake"
  else if -1 ≤ x ∧ x < -(1/2) then "inaccuracy"
  else if -(1/2) ≤ x ∧ x < 1/10 then "good"
  else if 1/10 ≤ x ∧ x < 1/2 then "great"
  else "excellent"

/-! ## Data model

The rows of the two Supabase tables read and written by the routes, and the
result dictionary of `stockfish_service.evaluate_position`.  Only the engine
fields that `annotate_game` reads (`evaluation` and `best_move`) are
modelled; `depth`, `is_mate` and `mate_in` are returned by the engine but
never used by the annotation pipeline. -/

/-- Engine result of `stockfish_service.evaluate_position`, restricted to the
fields `annotate_game` reads. -/
structure EvalResult where
  evaluation : ℚ
  best_move : Option String
deriving Repr, DecidableEq

/-- One row of the `move_annotations` table, as built by `annotate_game`
(lines 289-303 of game.py).  The same shape is used for the response model
`MoveAnnotation` (the response model simply drops `game_id`). -/
structure AnnotationRec where
  game_id : String
  move_number : Nat
  move_san : String
  move_uci : String
  color : String
  fen_before : String
  fen_after : String
  evaluation_before : ℚ
  evaluation_after : ℚ
  evaluation_change : ℚ
  classification : String
  is_best_move : Bool
  is_book_move : Bool
deriving Repr, DecidableEq

/-- One row of the `games` table, restricted to the columns the routes read:
`id`, `user_id`, `pgn`, `moves_only`, `analyzed`.  `pgn` and `moves_only` are
nullable text columns. -/
structure GameRec where
  id : String
  user_id : String
  pgn : Option String
  moves_only : Option String
  analyzed : Bool
deriving Repr, DecidableEq

/-- The Supabase database state visible to the routes. -/
structure DB where
  games : List GameRec
  annotations : List AnnotationRec
deriving Repr, DecidableEq

/-- Response model `GameAnnotationResponse`. -/
structure GameAnnotationResponse where
  game_id : String
  total_moves : Nat
  annotations : List AnnotationRec
deriving Repr, DecidableEq

/-- Response model `BatchAnnotationResponse`. -/
structure BatchAnnotationResponse where
  processed_games : Nat
  game_ids : List String
deriving Repr, DecidableEq

/-- A raised Python exception.  `http s d` is a FastAPI `HTTPException`;
the other constructors stand for exceptions escaping a collaborator call
(engine evaluation, database insert/update/select). -/
inductive PyErr where
  | http (status : Nat) (detail : String)
  | engine (fen : String)
  | insertErr
  | updateErr
  | listErr
deriving Repr, DecidableEq

/-- Python `str(e)` for a raised exception; for an `HTTPException`, starlette
renders `"{status_code}: {detail}"`.  The exact text for the non-HTTP
collaborator exceptions depends on the collaborator and is not load-bearing
anywhere. -/
def PyErr.msg : PyErr → String
  | .http s d => toString s ++ ": " ++ d
  | .engine fen => "engine failure at " ++ fen
  | .insertErr => "insert failed"
  | .updateErr => "update failed"
  | .listErr => "select failed"

/-- Status code of an error outcome, if the outcome is an `HTTPException`. -/
def errStatus {α : Type} : Except PyErr α → Option Nat
  | .error (.http s _) => some s
  | .error _ => none
  | .ok _ => none

/-! ## External collaborators

python-chess, PGN parsing and the Stockfish service are collaborators outside
this repository; they are modelled as abstract interfaces.  The single law
assumed about the chess library is that `Board.push` flips the side to move,
which holds for every move (including null moves) in python-chess. -/

/-- The slice of the python-chess board interface used by `annotate_game`. -/
structure ChessLib (B M : Type) where
  turn : B → Bool
  fen : B → String
  san : B → M → String
  uci : M → String
  push : B → M → B
  turn_push : ∀ b m, turn (push b m) = ! turn b

/-- Result of `chess.pgn.read_game`: the game's starting board
(`chess_game.board()`) and its mainline moves (`chess_game.mainline()`). -/
structure ParsedGame (B M : Type) where
  startBoard : B
  mainline : List M

/-- The ambient collaborator environment of one request: the chess library,
PGN parsing, the engine, and failure oracles for the fallible database
writes and for the batch candidate listing.  `insertFail n` says whether the
n-th `move_annotations` insert issued by a request raises. -/
structure Env (B M : Type) where
  lib : ChessLib B M
  read_game : String → Option (ParsedGame B M)
  evaluate_position : String → Option EvalResult
  insertFail : Nat → Bool
  updateFail : Bool
  listFail : Bool

/-! ## Database access helpers (Supabase query expressions of game.py) -/

/-- Python truthiness of an optional string (`None` and `""` are falsy). -/
def strTruthy : Option String → Bool
  | none => false
  | some s => !(s == "")

/-- `supabase.table("games").select("*").eq("id", gid)` followed by taking
row 0 (the routes check `len(...) == 0` and then use `data[0]`). -/
def findGame (db : DB) (gid : String) : Option GameRec :=
  (db.games.filter (fun g => g.id == gid)).head?

/-- The `move_annotations` rows of one game, in table order. -/
def annsFor (db : DB) (gid : String) : List AnnotationRec :=
  db.annotations.filter (fun a => a.game_id == gid)

/-- Stable insertion of a row into a list sorted by `move_number`
(rows with equal `move_number` keep their table order). -/
def insertByNum (a : AnnotationRec) : List AnnotationRec → List AnnotationRec
  | [] => [a]
  | b :: t => if b.move_number ≤ a.move_number then b :: insertByNum a t else a :: b :: t

/-- Stable sort by `move_number`, modelling `.order("move_number")`. -/
def sortByMoveNumber : List AnnotationRec → List AnnotationRec
  | [] => []
  | a :: t => insertByNum a (sortByMoveNumber t)

/-- `supabase.table("move_annotations").select("*").eq("game_id", gid)
.order("move_number")`, as read back by the already-analyzed path. -/
def storedAnns (db : DB) (gid : String) : List AnnotationRec :=
  sortByMoveNumber (annsFor db gid)

/-- The `analyzed` flag of the game row a lookup of `gid` returns. -/
def gameFlag (db : DB) (gid : String) : Option Bool :=
  (findGame db gid).map (fun g => g.analyzed)

/-- `supabase.table("games").update({"analyzed": True}).eq("id", gid)`. -/
def setAnalyzed (l : List GameRec) (gid : String) : List GameRec :=
  l.map (fun g => if g.id == gid then { g with analyzed := true } else g)

/-! ## The annotation pipeline (`annotate_game`, lines 199-326) -/

/-- The per-move loop of `annotate_game` (lines 254-309): for each mainline
move, record SAN/UCI/color, evaluate the position before the move, push the
move, evaluate the position after it, compute the evaluation change from the
mover's perspective (the source computes
`-evaluation_after - (-evaluation_before)` for black), classify it, and
build the row dictionary.  The second component is the trace of positions
sent to the engine; a failed evaluation aborts the whole loop, so either a
row is produced for every ply or no row list is produced at all. -/
def annotateMoves {B M : Type} (lib : ChessLib B M) (ev : String → Option EvalResult)
    (gid : String) : List M → B → Nat → Except PyErr (List AnnotationRec) × List String
  | [], _, _ => (.ok [], [])
  | m :: ms, board, move_number =>
    let move_san := lib.san board m
    let move_uci := lib.uci m
    let color := if lib.turn board then "white" else "black"
    let fen_before := lib.fen board
    match ev fen_before with
    | none => (.error (.engine fen_before), [fen_before])
    | some position_before =>
      let board' := lib.push board m
      let fen_after := lib.fen board'
      match ev fen_after with
      | none => (.error (.engine fen_after), [fen_before, fen_after])
      | some position_after =>
        let evaluation_change :=
          if color = "black" then
            -position_after.evaluation - (-position_before.evaluation)
          else
            position_after.evaluation - position_before.evaluation
        let ann : AnnotationRec :=
          { game_id := gid
            move_number := move_number
            move_san := move_san
            move_uci := move_uci
            color := color
            fen_before := fen_before
            fen_after := fen_after
            evaluation_before := position_before.evaluation
            evaluation_after := position_after.evaluation
            evaluation_change := evaluation_change
            classification := classify_move evaluation_change
            is_best_move := position_before.best_move == some move_uci
            is_book_move := false }
        let next_number := if color = "black" then move_number + 1 else move_number
        match annotateMoves lib ev gid ms board' next_number with
        | (.error e, tr) => (.error e, fen_before :: fen_after :: tr)
        | (.ok rest, tr) => (.ok (ann :: rest), fen_before :: fen_after :: tr)

/-- The insert loop of `annotate_game` (lines 311-313): rows are inserted
one at a time; the n-th insert raises iff `fail n`, leaving the earlier
rows persisted. -/
def insertAll (fail : Nat → Bool) : List AnnotationRec → Nat → DB → Option PyErr × DB
  | [], _, db => (none, db)
  | r :: rs, n, db =>
    if fail n then (some .insertErr, db)
    else insertAll fail rs (n + 1) { db with annotations := db.annotations ++ [r] }

/-- Body of the `try` block of `annotate_game` (lines 216-323): fetch the
game, check ownership, short-circuit on the `analyzed` flag, otherwise parse
the PGN, run the per-move loop, persist every row, flip the flag, and return
the freshly built rows.  Result components: outcome, database state after the
call, trace of engine calls. -/
def annotate_body {B M : Type} (env : Env B M) (game_id user_id : String) (db : DB) :
    Except PyErr GameAnnotationResponse × DB × List String :=
  match findGame db game_id with
  | none => (.error (.http 404 "Game not found"), db, [])
  | some game =>
    if game.user_id ≠ user_id then
      (.error (.http 403 "Unauthorized access to this game"), db, [])
    else if game.analyzed then
      let anns := storedAnns db game_id
      (.ok ⟨game_id, anns.length, anns⟩, db, [])
    else
      let pgnText := if strTruthy game.pgn then game.pgn else game.moves_only
      if strTruthy pgnText = false then
        (.error (.http 400 "Game does not contain valid PGN data"), db, [])
      else
        match env.read_game (pgnText.getD "") with
        | none => (.error (.http 400 "Invalid PGN format"), db, [])
        | some chess_game =>
          match annotateMoves env.lib env.evaluate_position game_id
              chess_game.mainline chess_game.startBoard 1 with
          | (.error e, tr) => (.error e, db, tr)
          | (.ok recs, tr) =>
            match insertAll env.insertFail recs 0 db with
            | (some e, db1) => (.error e, db1, tr)
            | (none, db1) =>
              if env.updateFail then (.error .updateErr, db1, tr)
              else
                (.ok ⟨game_id, recs.length, recs⟩,
                  { db1 with games := setAnalyzed db1.games game_id }, tr)

/-- The `annotate_game` route.  The source wraps its whole body in
`try ... except Exception`, and FastAPI's `HTTPException` is a subclass of
`Exception`, so every failure — including the route's own 404/403/400
raises — is re-raised as `HTTPException(500, "Error annotating game: " +
str(e))`. -/
def annotate_game {B M : Type} (env : Env B M) (game_id user_id : String) (db : DB) :
    Except PyErr GameAnnotationResponse × DB × List String :=
  match annotate_body env game_id user_id db with
  | (.ok r, db', tr) => (.ok r, db', tr)
  | (.error e, db', tr) =>
    (.error (.http 500 ("Error annotating game: " ++ e.msg)), db', tr)

/-! ## The batch route (`process_unannotated_games`, lines 328-376) -/

/-- `supabase.table("games").select("id").eq("analyzed", False)
.limit(limit)`, keeping only the ids. -/
def batchCandidates (db : DB) (limit : Nat) : List String :=
  ((db.games.filter (fun g => g.analyzed == false)).take limit).map (fun g => g.id)

/-- The per-game loop of `process_unannotated_games` (lines 358-368): each
candidate is annotated by calling the `annotate_game` route; an exception
from one game is caught and that game is skipped, the loop continues with
the database state the failed call left behind. -/
def processLoop {B M : Type} (env : Env B M) (user_id : String) :
    List String → DB → List String × DB
  | [], db => ([], db)
  | gid :: rest, db =>
    match annotate_game env gid user_id db with
    | (.ok _, db', _) =>
      let (ids, db'') := processLoop env user_id rest db'
      (gid :: ids, db'')
    | (.error _, db', _) => processLoop env user_id rest db'

/-- The `process-unannotated` route: list up to `limit` games with
`analyzed = false` (the listing itself may raise, surfacing as 500), return
`{0, []}` when there are none, otherwise run the per-game loop and report
the games that succeeded. -/
def process_unannotated_games {B M : Type} (env : Env B M) (limit : Nat)
    (user_id : String) (db : DB) : Except PyErr BatchAnnotationResponse × DB :=
  if env.listFail then
    (.error (.http 500 ("Error in batch processing: " ++ PyErr.listErr.msg)), db)
  else
    let cands := batchCandidates db limit
    if cands.isEmpty then (.ok ⟨0, []⟩, db)
    else
      let (ids, db') := processLoop env user_id cands db
      (.ok ⟨ids.length, ids⟩, db')

/-! ## Index bookkeeping for the replay invariants -/

/-- Color of the i-th ply (0-based) of a replay whose starting position has
White to move iff `w`. -/
def colorAt (w : Bool) (i : Nat) : String :=
  if i % 2 = 0 then (if w then "white" else "black")
  else (if w then "black" else "white")

/-- `move_number` recorded on the i-th ply (0-based) when the loop enters
with counter `n` and the starting position has White to move iff `w`. -/
def numAt (w : Bool) (n i : Nat) : Nat :=
  n + (if w then i / 2 else (i + 1) / 2)

/-- Proof bookkeeping for the batch loop: every game lookup in `db2` returns
a row with the same identity columns (`id`, `user_id`) as the lookup in
`db1`, and the `analyzed` flag may have changed only for a game owned by
`uid`. -/
def OwnerInv (uid : String) (db1 db2 : DB) : Prop :=
  ∀ gid, (findGame db1 gid = none ∧ findGame db2 gid = none) ∨
    (∃ a b, findGame db1 gid = some a ∧ findGame db2 gid = some b ∧
      b.id = a.id ∧ b.user_id = a.user_id ∧
      (a.user_id ≠ uid → b.analyzed = a.analyzed))

/-! ## Concrete test doubles

A tiny instantiation of the collaborator interfaces, used to evaluate the
pipeline on closed inputs.  A board is a pair (side to move, ply counter);
pushing any move flips the side and bumps the counter, as python-chess's
`Board.push` does. -/

/-- Toy board: side to move and ply counter. -/
abbrev TBoard : Type := Bool × Nat

/-- Canonical text of a toy board. -/
def toyFen (b : TBoard) : String := (if b.1 then "w" else "b") ++ toString b.2

/-- Toy chess library. -/
def toyLib : ChessLib TBoard Nat where
  turn b := b.1
  fen := toyFen
  san _ m := "s" ++ toString m
  uci m := "u" ++ toString m
  push b _ := (!b.1, b.2 + 1)
  turn_push := fun _ _ => rfl

/-- Toy PGN oracle: `"BAD"` fails to parse, `"PB"` is a one-ply game whose
starting position has Black to move (a PGN with a custom `FEN` start tag),
anything else is a two-ply game from the standard starting side. -/
def toyRead : String → Option (ParsedGame TBoard Nat)
  | "BAD" => none
  | "PB" => some ⟨(false, 0), [9]⟩
  | _ => some ⟨(true, 0), [0, 1]⟩

/-- Toy engine: position `"b0"` evaluates to `0.5`, `"w1"` to `0.2`,
everything else to `0`. -/
def toyEval (fen : String) : Option EvalResult :=
  if fen = "b0" then some ⟨1/2, some "u9"⟩
  else if fen = "w1" then some ⟨1/5, none⟩
  else some ⟨0, some "u0"⟩

/-- Environment in which every collaborator call succeeds. -/
def envOK : Env TBoard Nat :=
  ⟨toyLib, toyRead, toyEval, fun _ => false, false, false⟩

/-- Environment whose engine fails on position `"b1"` (the position reached
after the first ply of the standard toy game). -/
def envEvalFail : Env TBoard Nat :=
  { envOK with evaluate_position := fun f => if f = "b1" then none else some ⟨0, none⟩ }

/-- Environment whose second `move_annotations` insert raises. -/
def envInsFail : Env TBoard Nat :=
  { envOK with insertFail := fun n => n == 1 }

/-- Environment whose candidate listing raises. -/
def envListFail : Env TBoard Nat :=
  { envOK with listFail := true }

/-- A not-yet-analyzed game owned by `"u"`. -/
def gFresh : GameRec := ⟨"g", "u", some "P", none, false⟩

/-- The same game with `analyzed = true`. -/
def gDone : GameRec := ⟨"g", "u", some "P", none, true⟩

/-- A not-yet-analyzed game whose record starts with Black to move. -/
def gBlack : GameRec := ⟨"g", "u", some "PB", none, false⟩

/-- A stored annotation row (white ply of move 1). -/
def rowA : AnnotationRec :=
  ⟨"g", 1, "sA", "uA", "white", "fa", "fb", 0, 0, 0, "good", false, false⟩

/-- A stored annotation row (black ply of move 1). -/
def rowB : AnnotationRec :=
  ⟨"g", 1, "sB", "uB", "black", "fb", "fc", 0, 0, 0, "good", false, false⟩

/-- Database holding one already-analyzed game and its two stored rows. -/
def dbDone : DB := ⟨[gDone], [rowA, rowB]⟩

/-- Database holding one fresh game, no rows. -/
def dbFresh : DB := ⟨[gFresh], []⟩

/-- Database holding one fresh game whose record starts with Black. -/
def dbBlack : DB := ⟨[gBlack], []⟩

/-- Database with three fresh games, the middle one with unparseable PGN. -/
def dbBatch : DB :=
  ⟨[⟨"g1", "u", some "P", none, false⟩, ⟨"g2", "u", some "BAD", none, false⟩,
    ⟨"g3", "u", some "P", none, false⟩], []⟩

/-- Database with two fresh games owned by different users. -/
def dbOwners : DB :=
  ⟨[⟨"g1", "u", some "P", none, false⟩, ⟨"g2", "v", some "P", none, false⟩], []⟩

/-- Database with a fresh game and a game carrying no move text at all. -/
def dbNoPgn : DB := ⟨[gFresh, ⟨"ge", "u", none, none, false⟩], []⟩

/-- Row produced for the first (White) ply of the standard toy game. -/
def freshRowWhite : AnnotationRec :=
  ⟨"g", 1, "s0", "u0", "white", "w0", "b1", 0, 0, 0, "good", true, false⟩

/-- Row produced for the second (Black) ply of the standard toy game. -/
def freshRowBlack : AnnotationRec :=
  ⟨"g", 1, "s1", "u1", "black", "b1", "w2", 0, 0, 0, "good", false, false⟩

/-- Row produced for the single ply of the Black-to-move-first toy game:
the mover is Black, the position went from `0.5` to `0.2`, so the change
from Black's perspective is `0.3`, classified "great". -/
def blackStartRow : AnnotationRec :=
  ⟨"g", 1, "s9", "u9", "black", "b0", "w1", 1/2, 1/5, 3/10, "great", true, false⟩

/-- C3: for every rational input, `classify_move` agrees with the spec's
threshold table (half-open on the lower bound, first match wins), and the
boundary points behave exactly as the spec pins them:
`classify_move (-2.0) = "mistake"`, `classify_move 0.1 = "great"`,
`classify_move 0.5 = "excellent"`, `classify_move 0.4999 = "great"`. -/
theorem classify_move_matches_threshold_table :
    (∀ x : ℚ, classify_move x = classifySpecTable x) ∧
    classify_move (-2) = "mistake" ∧
    classify_move (1/10) = "great" ∧
    classify_move (1/2) = "excellent" ∧
    classify_move (4999/10000) = "great" := by
  refine ⟨fun x => ?_, by norm_num [classify_move], by norm_num [classify_move],
    by norm_num [classify_move], by norm_num [classify_move]⟩
  rcases lt_or_le x (-2) with h1 | h1
  · simp only [classify_move, classifySpecTable, h1, ite_true]
  · rcases lt_or_le x (-1) with h2 | h2
    · simp only [classify_move, classifySpecTable, not_lt.2 h1, h1, h2, ite_true, ite_false,
        true_and, and_true]
    · rcases lt_or_le x (-(1/2)) with h3 | h3
      · simp only [classify_move, classifySpecTable, not_lt.2 h1, not_lt.2 h2, h2, h3,
          ite_true, ite_false, true_and, and_true, and_false, false_and]
      · rcases lt_or_le x (1/10) with h4 | h4
        · simp only [classify_move, classifySpecTable, not_lt.2 h1, not_lt.2 h2, not_lt.2 h3,
            h3, h4, ite_true, ite_false, true_and, and_true, and_false, false_and]
        · rcases lt_or_le x (1/2) with h5 | h5
          · simp only [classify_move, classifySpecTable, not_lt.2 h1, not_lt.2 h2, not_lt.2 h3,
              not_lt.2 h4, h4, h5, ite_true, ite_false, true_and, and_true, and_false, false_and]
          · simp only [classify_move, classifySpecTable, not_lt.2 h1, not_lt.2 h2, not_lt.2 h3,
              not_lt.2 h4, not_lt.2 h5, ite_true, ite_false, and_false, false_and]

/-- An empty mainline yields an empty row list. -/
theorem annotateMoves_nil_ok {B M : Type} (lib : ChessLib B M)
    (ev : String → Option EvalResult) (gid : String) (board : B) (n : Nat)
    (recs : List AnnotationRec)
    (h : (annotateMoves lib ev gid [] board n).1 = .ok recs) : recs = [] := by
  have h' : (Except.ok ([] : List AnnotationRec) : Except PyErr _) = .ok recs := h
  injection h' with h'
  exact h'.symm

/-- One successful step of the per-move loop: both engine calls succeeded,
the produced row list is the step's row followed by the rows of the rest of
the replay (run from the pushed board, with the move counter bumped exactly
when the mover was Black), and the step's row has the fields the source
builds for it. -/
theorem annotateMoves_cons_ok {B M : Type} (lib : ChessLib B M)
    (ev : String → Option EvalResult) (gid : String) (m : M) (ms : List M)
    (board : B) (n : Nat) (recs : List AnnotationRec)
    (h : (annotateMoves lib ev gid (m :: ms) board n).1 = .ok recs) :
    ∃ pb pa ann rest,
      ev (lib.fen board) = some pb ∧
      ev (lib.fen (lib.push board m)) = some pa ∧
      recs = ann :: rest ∧
      (annotateMoves lib ev gid ms (lib.push board m)
          (if lib.turn board then n else n + 1)).1 = .ok rest ∧
      ann.game_id = gid ∧ ann.move_number = n ∧
      ann.color = (if lib.turn board then "white" else "black") ∧
      ann.fen_before = lib.fen board ∧
      ann.fen_after = lib.fen (lib.push board m) ∧
      ann.evaluation_before = pb.evaluation ∧
      ann.evaluation_after = pa.evaluation ∧
      ann.evaluation_change =
        (if lib.turn board then pa.evaluation - pb.evaluation
          else pb.evaluation - pa.evaluation) ∧
      ann.classification = classify_move ann.evaluation_change ∧
      ann.is_book_move = false := by
  cases hpb : ev (lib.fen board) with
  | none => simp [annotateMoves, hpb] at h
  | some pb =>
    cases hpa : ev (lib.fen (lib.push board m)) with
    | none => simp [annotateMoves, hpb, hpa] at h
    | some pa =>
      cases ht : lib.turn board with
      | false =>
        rcases hrec : annotateMoves lib ev gid ms (lib.push board m) (n + 1)
          with ⟨res, tr2⟩
        cases res with
        | error e => simp [annotateMoves, hpb, hpa, ht, hrec] at h
        | ok rest =>
          simp only [annotateMoves, hpb, hpa, ht, Bool.false_eq_true, if_false,
            show (("black" : String) = "black") = True from eq_true rfl, if_true,
            hrec, Except.ok.injEq] at h
          refine ⟨pb, pa, _, rest, rfl, rfl, h.symm, ?_, rfl, rfl, rfl, rfl, rfl, rfl, rfl,
            ?_, rfl, rfl⟩
          · rw [show (if (false = true) then n else n + 1) = n + 1 from rfl, hrec]
          · exact neg_sub_neg _ _
      | true =>
        rcases hrec : annotateMoves lib ev gid ms (lib.push board m) n with ⟨res, tr2⟩
        cases res with
        | error e => simp [annotateMoves, hpb, hpa, ht, hrec] at h
        | ok rest =>
          simp only [annotateMoves, hpb, hpa, ht,
            show ((true = true)) = True from eq_true rfl, if_true,
            show (("white" : String) = "black") = False from eq_false (by decide), if_false,
            hrec, Except.ok.injEq] at h
          refine ⟨pb, pa, _, rest, rfl, rfl, h.symm, ?_, rfl, rfl, rfl, rfl, rfl, rfl, rfl,
            ?_, rfl, rfl⟩
          · rw [show (if (true = true) then n else n + 1) = n from rfl, hrec]
          · rfl

/-- A successful per-move loop yields one row per ply, and every row carries
the game id, `is_book_move = false`, a classification that is exactly
`classify_move` of its own `evaluation_change`, and the mover-perspective
sign convention for `evaluation_change`. -/
theorem annotateMoves_ok_mem {B M : Type} (lib : ChessLib B M)
    (ev : String → Option EvalResult) (gid : String) :
    ∀ (ms : List M) (board : B) (n : Nat) (recs : List AnnotationRec),
      (annotateMoves lib ev gid ms board n).1 = .ok recs →
      recs.length = ms.length ∧
      ∀ r ∈ recs, r.game_id = gid ∧ r.is_book_move = false ∧
        r.classification = classify_move r.evaluation_change ∧
        (r.color = "white" →
          r.evaluation_change = r.evaluation_after - r.evaluation_before) ∧
        (r.color = "black" →
          r.evaluation_change = r.evaluation_before - r.evaluation_after) := by
  intro ms
  induction ms with
  | nil =>
    intro board n recs h
    rw [annotateMoves_nil_ok lib ev gid board n recs h]
    exact ⟨rfl, by simp⟩
  | cons m ms ih =>
    intro board n recs h
    obtain ⟨pb, pa, ann, rest, _, _, hrecs, hrest, hgid, hnum, hcol, hfb, hfa, heb, hea,
      hch, hcl, hbk⟩ := annotateMoves_cons_ok lib ev gid m ms board n recs h
    obtain ⟨hlen, hmem⟩ := ih (lib.push board m) _ rest hrest
    subst hrecs
    refine ⟨by simp [hlen], ?_⟩
    intro r hr
    rcases List.mem_cons.1 hr with rfl | hr
    · refine ⟨hgid, hbk, hcl, ?_, ?_⟩
      · intro hw
        cases ht : lib.turn board with
        | false =>
          rw [ht] at hcol
          simp only [Bool.false_eq_true, if_false] at hcol
          rw [hcol] at hw
          exact absurd hw (by decide)
        | true =>
          rw [ht] at hch
          simp only [if_true, hea, heb] at hch ⊢
          exact hch
      · intro hb
        cases ht : lib.turn board with
        | true =>
          rw [ht] at hcol
          simp only [if_true] at hcol
          rw [hcol] at hb
          exact absurd hb (by decide)
        | false =>
          rw [ht] at hch
          simp only [Bool.false_eq_true, if_false, hea, heb] at hch ⊢
          exact hch
    · exact hmem r hr

/-- A successful per-move loop starts with the entry board's position text
and links every row's `fen_after` to the next row's `fen_before`. -/
theorem annotateMoves_ok_chain {B M : Type} (lib : ChessLib B M)
    (ev : String → Option EvalResult) (gid : String) :
    ∀ (ms : List M) (board : B) (n : Nat) (recs : List AnnotationRec),
      (annotateMoves lib ev gid ms board n).1 = .ok recs →
      (∀ r ∈ recs.head?, r.fen_before = lib.fen board) ∧
      List.Chain' (fun a b => a.fen_after = b.fen_before) recs := by
  intro ms
  induction ms with
  | nil =>
    intro board n recs h
    rw [annotateMoves_nil_ok lib ev gid board n recs h]
    exact ⟨by simp, List.chain'_nil⟩
  | cons m ms ih =>
    intro board n recs h
    obtain ⟨pb, pa, ann, rest, _, _, hrecs, hrest, _, _, _, hfb, hfa, _, _, _, _, _⟩ :=
      annotateMoves_cons_ok lib ev gid m ms board n recs h
    obtain ⟨hhead, hchain⟩ := ih (lib.push board m) _ rest hrest
    subst hrecs
    constructor
    · intro r hr
      simp only [List.head?_cons, Option.mem_def, Option.some.injEq] at hr
      rw [← hr]
      exact hfb
    · refine List.chain'_cons'.2 ⟨?_, hchain⟩
      intro y hy
      rw [hfa]
      exact (hhead y hy).symm

/-- Stepping the ply index swaps the expected color. -/
theorem colorAt_succ (w : Bool) (i : Nat) : colorAt w (i + 1) = colorAt (!w) i := by
  rcases Nat.mod_two_eq_zero_or_one i with h | h
  · have h1 : (i + 1) % 2 = 1 := by omega
    cases w <;> simp [colorAt, h, h1]
  · have h1 : (i + 1) % 2 = 0 := by omega
    cases w <;> simp [colorAt, h, h1]

/-- Stepping the ply index matches the loop's counter bump: the counter is
bumped exactly after a Black ply. -/
theorem numAt_succ (w : Bool) (n i : Nat) :
    numAt w n (i + 1) = numAt (!w) (if w = true then n else n + 1) i := by
  cases w
  · show n + (i + 1 + 1) / 2 = (if (false = true) then n else n + 1) + i / 2
    rw [if_neg (by simp)]
    omega
  · show n + (i + 1) / 2 = (if (true = true) then n else n + 1) + (i + 1) / 2
    rw [if_pos rfl]

/-- A successful per-move loop records, on the i-th row, the color and move
number determined by the entry board's side to move and the entry counter. -/
theorem annotateMoves_ok_shape {B M : Type} (lib : ChessLib B M)
    (ev : String → Option EvalResult) (gid : String) :
    ∀ (ms : List M) (board : B) (n : Nat) (recs : List AnnotationRec),
      (annotateMoves lib ev gid ms board n).1 = .ok recs →
      ∀ i (hi : i < recs.length),
        (recs.get ⟨i, hi⟩).color = colorAt (lib.turn board) i ∧
        (recs.get ⟨i, hi⟩).move_number = numAt (lib.turn board) n i := by
  intro ms
  induction ms with
  | nil =>
    intro board n recs h i hi
    have hnil := annotateMoves_nil_ok lib ev gid board n recs h
    subst hnil
    exact absurd hi (by simp)
  | cons m ms ih =>
    intro board n recs h i hi
    obtain ⟨pb, pa, ann, rest, _, _, hrecs, hrest, _, hnum, hcol, _, _, _, _, _, _, _⟩ :=
      annotateMoves_cons_ok lib ev gid m ms board n recs h
    subst hrecs
    cases i with
    | zero =>
      constructor
      · show ann.color = colorAt (lib.turn board) 0
        rw [hcol, colorAt]
        simp
      · show ann.move_number = numAt (lib.turn board) n 0
        rw [hnum, numAt]
        cases hw : lib.turn board <;> simp
    | succ j =>
      have hj : j < rest.length := by simpa using hi
      have hstep := ih (lib.push board m) _ rest hrest j hj
      have ht := lib.turn_push board m
      constructor
      · show (rest.get ⟨j, hj⟩).color = colorAt (lib.turn board) (j + 1)
        rw [colorAt_succ, ← ht]
        exact hstep.1
      · show (rest.get ⟨j, hj⟩).move_number = numAt (lib.turn board) n (j + 1)
        rw [numAt_succ, ← ht]
        exact hstep.2

/-- The insert loop never touches the `games` table. -/
theorem insertAll_games (fail : Nat → Bool) :
    ∀ (recs : List AnnotationRec) (n : Nat) (db : DB),
      (insertAll fail recs n db).2.games = db.games := by
  intro recs
  induction recs with
  | nil => intro n db; rfl
  | cons r rs ih =>
    intro n db
    rw [insertAll]
    split
    · rfl
    · exact ih (n + 1) _

/-- A fully successful insert loop appends exactly the given rows. -/
theorem insertAll_ok_anns (fail : Nat → Bool) :
    ∀ (recs : List AnnotationRec) (n : Nat) (db : DB),
      (insertAll fail recs n db).1 = none →
      (insertAll fail recs n db).2.annotations = db.annotations ++ recs := by
  intro recs
  induction recs with
  | nil => intro n db _; simp [insertAll]
  | cons r rs ih =>
    intro n db h
    rw [insertAll] at h ⊢
    split at h
    · simp at h
    · rename_i hf
      rw [if_neg hf]
      rw [ih (n + 1) _ h]
      simp

/-- On an already-analyzed game owned by the requester, the body of
`annotate_game` returns the stored rows ordered by move number, touches
nothing and calls the engine zero times. -/
theorem annotate_body_analyzed {B M : Type} (env : Env B M) (db : DB)
    (gid uid : String) (g : GameRec) (hfind : findGame db gid = some g)
    (hown : g.user_id = uid) (hana : g.analyzed = true) :
    annotate_body env gid uid db =
      (.ok ⟨gid, (storedAnns db gid).length, storedAnns db gid⟩, db, []) := by
  unfold annotate_body
  rw [hfind]
  simp [hown, hana]

/-- The insert loop only ever appends to the `move_annotations` table. -/
theorem insertAll_anns_ext (fail : Nat → Bool) :
    ∀ (recs : List AnnotationRec) (n : Nat) (db : DB),
      ∃ l, (insertAll fail recs n db).2.annotations = db.annotations ++ l := by
  intro recs
  induction recs with
  | nil => intro n db; exact ⟨[], by simp [insertAll]⟩
  | cons r rs ih =>
    intro n db
    rw [insertAll]
    split
    · exact ⟨[], by simp⟩
    · obtain ⟨l, hl⟩ := ih (n + 1) { db with annotations := db.annotations ++ [r] }
      exact ⟨r :: l, by rw [hl]; simp⟩

/-- Shape of the `games` table after a body call: it is either untouched, or
the call succeeded, its game was found owned by the requester, and exactly
that game's `analyzed` flag was set. -/
theorem annotate_body_games_shape {B M : Type} (env : Env B M) (gid uid : String)
    (db : DB) :
    (annotate_body env gid uid db).2.1.games = db.games ∨
    ((∃ resp, (annotate_body env gid uid db).1 = .ok resp) ∧
      (annotate_body env gid uid db).2.1.games = setAnalyzed db.games gid ∧
      ∃ g, findGame db gid = some g ∧ g.user_id = uid) := by
  unfold annotate_body
  cases hf : findGame db gid with
  | none => left; rfl
  | some game =>
    dsimp only
    by_cases hu : game.user_id = uid
    · rw [if_neg (by simp [hu])]
      by_cases hz : game.analyzed = true
      · rw [if_pos hz]
        left; rfl
      · rw [if_neg hz]
        by_cases hp : strTruthy (if strTruthy game.pgn then game.pgn else game.moves_only)
          = false
        · rw [if_pos hp]
          left; rfl
        · rw [if_neg hp]
          cases hrd : env.read_game
              ((if strTruthy game.pgn then game.pgn else game.moves_only).getD "") with
          | none => left; rfl
          | some pg =>
            dsimp only
            rcases hloop : annotateMoves env.lib env.evaluate_position gid pg.mainline
                pg.startBoard 1 with ⟨res, tr0⟩
            cases res with
            | error e => left; rfl
            | ok recs =>
              dsimp only
              rcases hins : insertAll env.insertFail recs 0 db with ⟨ires, db1⟩
              have hg1 : db1.games = db.games := by
                have := insertAll_games env.insertFail recs 0 db
                rw [hins] at this
                exact this
              cases ires with
              | some e => left; exact hg1
              | none =>
                dsimp only
                by_cases hupd : env.updateFail = true
                · rw [if_pos hupd]
                  left; exact hg1
                · rw [if_neg hupd]
                  right
                  refine ⟨⟨_, rfl⟩, ?_, game, rfl, hu⟩
                  show setAnalyzed db1.games gid = setAnalyzed db.games gid
                  rw [hg1]
    · rw [if_pos (by simp [hu])]
      left; rfl

/-- A successful body call found the game and the requester owns it. -/
theorem annotate_body_ok_owner {B M : Type} (env : Env B M) (gid uid : String)
    (db : DB) (resp : GameAnnotationResponse)
    (h : (annotate_body env gid uid db).1 = .ok resp) :
    ∃ g, findGame db gid = some g ∧ g.user_id = uid := by
  unfold annotate_body at h
  cases hf : findGame db gid with
  | none => simp [hf] at h
  | some game =>
    refine ⟨game, rfl, ?_⟩
    rw [hf] at h
    dsimp only at h
    by_cases hu : game.user_id = uid
    · exact hu
    · rw [if_pos (by simp [hu])] at h
      simp at h

/-- A body call whose per-move loop failed (an engine evaluation failure)
leaves the database exactly as it was. -/
theorem annotate_body_loop_err {B M : Type} (env : Env B M) (gid uid : String)
    (db : DB) (g : GameRec) (pg : ParsedGame B M) (e : PyErr)
    (hfind : findGame db gid = some g) (hown : g.user_id = uid)
    (hana : g.analyzed = false)
    (hrd : env.read_game
      ((if strTruthy g.pgn then g.pgn else g.moves_only).getD "") = some pg)
    (hloop : (annotateMoves env.lib env.evaluate_position gid pg.mainline
      pg.startBoard 1).1 = .error e) :
    (annotate_body env gid uid db).2.1 = db := by
  unfold annotate_body
  rw [hfind]
  dsimp only
  rw [if_neg (by simp [hown])]
  rw [if_neg (by simp [hana])]
  by_cases hp : strTruthy (if strTruthy g.pgn then g.pgn else g.moves_only) = false
  · rw [if_pos hp]
  · rw [if_neg hp, hrd]
    dsimp only
    rcases hloop' : annotateMoves env.lib env.evaluate_position gid pg.mainline
        pg.startBoard 1 with ⟨res, tr0⟩
    rw [hloop'] at hloop
    cases res with
    | ok recs => simp at hloop
    | error e2 => rfl

/-- A successful `annotate_game` call is a successful body: the wrapper only
re-wraps errors. -/
theorem annotate_game_ok_body {B M : Type} (env : Env B M) (gid uid : String)
    (db : DB) (resp : GameAnnotationResponse)
    (h : (annotate_game env gid uid db).1 = .ok resp) :
    annotate_body env gid uid db =
      (.ok resp, (annotate_game env gid uid db).2.1, (annotate_game env gid uid db).2.2) := by
  unfold annotate_game at *
  rcases hb : annotate_body env gid uid db with ⟨res, db', tr⟩
  rw [hb] at h
  cases res with
  | error e => simp at h
  | ok r =>
    have hr : r = resp := by simpa using h
    subst hr
    rfl

/-- A failed body leaves the database exactly as the body's second component
says; in particular the wrapper changes no database state. -/
theorem annotate_game_db {B M : Type} (env : Env B M) (gid uid : String) (db : DB) :
    (annotate_game env gid uid db).2.1 = (annotate_body env gid uid db).2.1 := by
  unfold annotate_game
  rcases hb : annotate_body env gid uid db with ⟨res, db', tr⟩
  cases res <;> rfl

/-- A successful body call on a not-yet-analyzed game owned by the requester
went down the fresh path: the stored move text parsed, the per-move loop
succeeded, the response is built from the loop's rows, and the new database
state is the old one with every row appended and the game's `analyzed` flag
set. -/
theorem annotate_body_fresh_ok {B M : Type} (env : Env B M) (gid uid : String)
    (db : DB) (g : GameRec) (resp : GameAnnotationResponse) (db' : DB)
    (tr : List String) (hfind : findGame db gid = some g) (hown : g.user_id = uid)
    (hana : g.analyzed = false)
    (h : annotate_body env gid uid db = (.ok resp, db', tr)) :
    ∃ pg recs,
      env.read_game ((if strTruthy g.pgn then g.pgn else g.moves_only).getD "") = some pg ∧
      (annotateMoves env.lib env.evaluate_position gid pg.mainline pg.startBoard 1).1 =
        .ok recs ∧
      env.updateFail = false ∧
      resp = ⟨gid, recs.length, recs⟩ ∧
      db' = { games := setAnalyzed db.games gid,
              annotations := db.annotations ++ recs } := by
  unfold annotate_body at h
  rw [hfind] at h
  simp only [hown, hana, ne_eq, not_true_eq_false, Bool.false_eq_true, if_false,
    ite_self, if_true] at h
  rcases hstr : strTruthy (if strTruthy g.pgn then g.pgn else g.moves_only) with _ | _
  · simp [hstr] at h
  · simp only [hstr, show ((true = false)) = False from eq_false (by simp), if_false] at h
    cases hrd : env.read_game ((if strTruthy g.pgn then g.pgn else g.moves_only).getD "")
      with
    | none => simp [hrd] at h
    | some pg =>
      simp only [hrd] at h
      rcases hloop : annotateMoves env.lib env.evaluate_position gid pg.mainline
          pg.startBoard 1 with ⟨res, tr0⟩
      simp only [hloop] at h
      cases res with
      | error e => simp at h
      | ok recs =>
        rcases hins : insertAll env.insertFail recs 0 db with ⟨ires, db1⟩
        simp only [hins] at h
        cases ires with
        | some e => simp at h
        | none =>
          cases hupd : env.updateFail with
          | true => simp [hupd] at h
          | false =>
            simp only [hupd, Bool.false_eq_true, if_false, Prod.mk.injEq,
              Except.ok.injEq] at h
            obtain ⟨h1, h2, h3⟩ := h
            refine ⟨pg, recs, rfl, by rw [hloop], rfl, h1.symm, ?_⟩
            have hg1 : db1.games = db.games := by
              have := insertAll_games env.insertFail recs 0 db
              rw [hins] at this
              exact this
            have ha1 : db1.annotations = db.annotations ++ recs := by
              have := insertAll_ok_anns env.insertFail recs 0 db (by rw [hins])
              rw [hins] at this
              exact this
            rw [← h2, hg1, ha1]

/-- C1: for a game whose `analyzed` flag is true, `annotate_game` called by
the owning requester returns the previously persisted rows (ordered by move
number) and performs no engine call and no database write; since the
database is left untouched, a second call returns the identical outcome. -/
theorem annotate_game_idempotent_when_analyzed {B M : Type} (env : Env B M)
    (db : DB) (gid uid : String) (g : GameRec)
    (hfind : findGame db gid = some g) (hown : g.user_id = uid)
    (hana : g.analyzed = true) :
    (annotate_game env gid uid db).2.1 = db ∧
    (annotate_game env gid uid db).2.2 = [] ∧
    (annotate_game env gid uid db).1 =
      .ok ⟨gid, (storedAnns db gid).length, storedAnns db gid⟩ ∧
    annotate_game env gid uid ((annotate_game env gid uid db).2.1) =
      annotate_game env gid uid db := by
  have hbody := annotate_body_analyzed env db gid uid g hfind hown hana
  have h2 : annotate_game env gid uid db =
      (.ok ⟨gid, (storedAnns db gid).length, storedAnns db gid⟩, db, []) := by
    unfold annotate_game
    rw [hbody]
  rw [h2]
  exact ⟨rfl, rfl, rfl, h2⟩

/-- Witness for C1 at a concrete analyzed game: the call leaves the database
unchanged, issues zero engine calls, returns the two stored rows, and a
repeat call returns the identical outcome. -/
theorem annotate_game_idempotent_when_analyzed_witness :
    (annotate_game envOK "g" "u" dbDone).2.1 = dbDone ∧
    (annotate_game envOK "g" "u" dbDone).2.2 = [] ∧
    (annotate_game envOK "g" "u" dbDone).1 =
      .ok ⟨"g", (storedAnns dbDone "g").length, storedAnns dbDone "g"⟩ ∧
    annotate_game envOK "g" "u" ((annotate_game envOK "g" "u" dbDone).2.1) =
      annotate_game envOK "g" "u" dbDone :=
  annotate_game_idempotent_when_analyzed envOK dbDone "g" "u" gDone
    (by with_unfolding_all rfl) rfl rfl

/-- C4: every row freshly produced by `annotate_game` carries an
`evaluation_change` computed from the mover's own perspective — for White
`evaluation_after - evaluation_before`, for Black
`evaluation_before - evaluation_after` (the source's
`-evaluation_after - (-evaluation_before)`) — and its classification is
exactly `classify_move` of that change. -/
theorem evaluation_change_mover_perspective {B M : Type} (env : Env B M)
    (gid uid : String) (db : DB) (g : GameRec) (resp : GameAnnotationResponse)
    (hfind : findGame db gid = some g) (hown : g.user_id = uid)
    (hana : g.analyzed = false)
    (hok : (annotate_game env gid uid db).1 = .ok resp) :
    ∀ r ∈ resp.annotations,
      (r.color = "white" →
        r.evaluation_change = r.evaluation_after - r.evaluation_before) ∧
      (r.color = "black" →
        r.evaluation_change = r.evaluation_before - r.evaluation_after) ∧
      r.classification = classify_move r.evaluation_change := by
  have hbody := annotate_game_ok_body env gid uid db resp hok
  obtain ⟨pg, recs, hrd, hloop, hupd, hresp, hdb⟩ :=
    annotate_body_fresh_ok env gid uid db g resp _ _ hfind hown hana hbody
  obtain ⟨hlen, hmem⟩ := annotateMoves_ok_mem env.lib env.evaluate_position gid
    pg.mainline pg.startBoard 1 recs hloop
  intro r hr
  rw [hresp] at hr
  obtain ⟨_, _, hcl, hw, hb⟩ := hmem r hr
  exact ⟨hw, hb, hcl⟩

/-- Witness for C4 at a concrete game whose single mover is Black with
`evaluation_before = 0.5` and `evaluation_after = 0.2`: the produced row has
`evaluation_change = 0.3` and classification "great", and the sign
convention holds for every row of the response. -/
theorem evaluation_change_mover_perspective_witness :
    ((annotate_game envOK "g" "u" dbBlack).1 = .ok ⟨"g", 1, [blackStartRow]⟩) ∧
    blackStartRow.evaluation_change = 3/10 ∧
    blackStartRow.classification = "great" ∧
    (∀ r ∈ (⟨"g", 1, [blackStartRow]⟩ : GameAnnotationResponse).annotations,
        (r.color = "white" →
          r.evaluation_change = r.evaluation_after - r.evaluation_before) ∧
        (r.color = "black" →
          r.evaluation_change = r.evaluation_before - r.evaluation_after) ∧
        r.classification = classify_move r.evaluation_change) := by
  have hok : (annotate_game envOK "g" "u" dbBlack).1 = .ok ⟨"g", 1, [blackStartRow]⟩ := by
    with_unfolding_all rfl
  exact ⟨hok, rfl, rfl, evaluation_change_mover_perspective envOK "g" "u" dbBlack gBlack
    _ (by with_unfolding_all rfl) rfl rfl hok⟩

/-- C7: in every AnnotationSet freshly produced by `annotate_game`, the
`fen_after` of each ply equals the `fen_before` of the next ply. -/
theorem fen_continuity {B M : Type} (env : Env B M)
    (gid uid : String) (db : DB) (g : GameRec) (resp : GameAnnotationResponse)
    (hfind : findGame db gid = some g) (hown : g.user_id = uid)
    (hana : g.analyzed = false)
    (hok : (annotate_game env gid uid db).1 = .ok resp) :
    List.Chain' (fun a b => a.fen_after = b.fen_before) resp.annotations := by
  have hbody := annotate_game_ok_body env gid uid db resp hok
  obtain ⟨pg, recs, hrd, hloop, hupd, hresp, hdb⟩ :=
    annotate_body_fresh_ok env gid uid db g resp _ _ hfind hown hana hbody
  have hchain := (annotateMoves_ok_chain env.lib env.evaluate_position gid
    pg.mainline pg.startBoard 1 recs hloop).2
  rw [hresp]
  exact hchain

/-- Witness for C7 at the concrete two-ply toy game: the produced rows are
`"w0" → "b1"` and `"b1" → "w2"`, with `fen_after` of ply 1 equal to
`fen_before` of ply 2. -/
theorem fen_continuity_witness :
    ((annotate_game envOK "g" "u" dbFresh).1 =
      .ok ⟨"g", 2, [freshRowWhite, freshRowBlack]⟩) ∧
    freshRowWhite.fen_after = freshRowBlack.fen_before ∧
    List.Chain' (fun a b => a.fen_after = b.fen_before)
      (⟨"g", 2, [freshRowWhite, freshRowBlack]⟩ : GameAnnotationResponse).annotations := by
  have hok : (annotate_game envOK "g" "u" dbFresh).1 =
      .ok ⟨"g", 2, [freshRowWhite, freshRowBlack]⟩ := by
    with_unfolding_all rfl
  exact ⟨hok, rfl, fen_continuity envOK "g" "u" dbFresh gFresh _
    (by with_unfolding_all rfl) rfl rfl hok⟩

/-- C9: every row freshly produced by `annotate_game` has
`is_book_move = false` (the source hard-codes it, opening-book detection is
not implemented). -/
theorem is_book_move_always_false {B M : Type} (env : Env B M)
    (gid uid : String) (db : DB) (g : GameRec) (resp : GameAnnotationResponse)
    (hfind : findGame db gid = some g) (hown : g.user_id = uid)
    (hana : g.analyzed = false)
    (hok : (annotate_game env gid uid db).1 = .ok resp) :
    ∀ r ∈ resp.annotations, r.is_book_move = false := by
  have hbody := annotate_game_ok_body env gid uid db resp hok
  obtain ⟨pg, recs, hrd, hloop, hupd, hresp, hdb⟩ :=
    annotate_body_fresh_ok env gid uid db g resp _ _ hfind hown hana hbody
  obtain ⟨hlen, hmem⟩ := annotateMoves_ok_mem env.lib env.evaluate_position gid
    pg.mainline pg.startBoard 1 recs hloop
  intro r hr
  rw [hresp] at hr
  exact (hmem r hr).2.1

/-- Witness for C9 at the concrete two-ply toy game. -/
theorem is_book_move_always_false_witness :
    ((annotate_game envOK "g" "u" dbFresh).1 =
      .ok ⟨"g", 2, [freshRowWhite, freshRowBlack]⟩) ∧
    (∀ r ∈ (⟨"g", 2, [freshRowWhite, freshRowBlack]⟩ : GameAnnotationResponse).annotations,
        r.is_book_move = false) := by
  have hok : (annotate_game envOK "g" "u" dbFresh).1 =
      .ok ⟨"g", 2, [freshRowWhite, freshRowBlack]⟩ := by
    with_unfolding_all rfl
  exact ⟨hok, is_book_move_always_false envOK "g" "u" dbFresh gFresh _
    (by with_unfolding_all rfl) rfl rfl hok⟩

/-- C8 counterexample: a stored game whose parsed record starts with Black
to move (python-chess produces such a game for any PGN with a custom `FEN`
start tag) yields a freshly produced AnnotationSet whose color sequence is
`["black"]` — it does not start with "white", refuting the claim as stated
for arbitrary game records. -/
theorem color_not_starting_white_counterexample :
    ((annotate_game envOK "g" "u" dbBlack).1 = .ok ⟨"g", 1, [blackStartRow]⟩) ∧
    (⟨"g", 1, [blackStartRow]⟩ : GameAnnotationResponse).annotations.map
      (fun r => r.color) = ["black"] ∧
    gameFlag dbBlack "g" = some false := by
  refine ⟨by with_unfolding_all rfl, rfl, by with_unfolding_all rfl⟩

/-- C8 (amended): in every AnnotationSet freshly produced by `annotate_game`
the color of the 0-based ply `i` is `colorAt` of the parsed starting
position's side to move — the colors strictly alternate, starting with the
side to move of the game's parsed starting position — and its `move_number`
is `numAt` of that side with entry counter 1, so the number increments only
after a Black ply completes.  In particular, for a record whose parsed start
has White to move — every standard PGN without a custom start position —
ply `i` is "white" exactly when `i` is even and its `move_number` is
`(i + 2) / 2`, i.e. the ceiling of `(i + 1) / 2`. -/
theorem color_alternation_move_number {B M : Type} (env : Env B M)
    (gid uid : String) (db : DB) (g : GameRec) (resp : GameAnnotationResponse)
    (pg : ParsedGame B M) (hfind : findGame db gid = some g)
    (hown : g.user_id = uid) (hana : g.analyzed = false)
    (hrd : env.read_game
      ((if strTruthy g.pgn then g.pgn else g.moves_only).getD "") = some pg)
    (hok : (annotate_game env gid uid db).1 = .ok resp) :
    ∀ i (hi : i < resp.annotations.length),
      (resp.annotations.get ⟨i, hi⟩).color =
        colorAt (env.lib.turn pg.startBoard) i ∧
      (resp.annotations.get ⟨i, hi⟩).move_number =
        numAt (env.lib.turn pg.startBoard) 1 i ∧
      (env.lib.turn pg.startBoard = true →
        (resp.annotations.get ⟨i, hi⟩).color =
          (if i % 2 = 0 then "white" else "black") ∧
        (resp.annotations.get ⟨i, hi⟩).move_number = (i + 2) / 2) := by
  have hbody := annotate_game_ok_body env gid uid db resp hok
  obtain ⟨pg', recs, hrd', hloop, hupd, hresp, hdb⟩ :=
    annotate_body_fresh_ok env gid uid db g resp _ _ hfind hown hana hbody
  have hpg : pg = pg' := by
    rw [hrd] at hrd'
    injection hrd'
  subst hpg
  subst hresp
  intro i hi
  have hi' : i < recs.length := hi
  have hshape := annotateMoves_ok_shape env.lib env.evaluate_position gid
    pg.mainline pg.startBoard 1 recs hloop i hi'
  refine ⟨hshape.1, hshape.2, ?_⟩
  intro hwhite
  rw [hwhite] at hshape
  constructor
  · rw [hshape.1]
    rcases Nat.mod_two_eq_zero_or_one i with h | h <;> simp [colorAt, h]
  · rw [hshape.2, numAt, if_pos rfl]
    omega

/-- Witness for the amended C8, exercising both start sides: the White-start
two-ply toy game yields colors `["white", "black"]` with both plies on move
number 1, and the Black-to-move-start one-ply game yields first color
"black" — `colorAt` of its parsed side to move — with move number 1. -/
theorem color_alternation_move_number_witness :
    ((annotate_game envOK "g" "u" dbFresh).1 =
      .ok ⟨"g", 2, [freshRowWhite, freshRowBlack]⟩) ∧
    freshRowWhite.color = colorAt true 0 ∧ freshRowWhite.color = "white" ∧
    freshRowWhite.move_number = 1 ∧
    freshRowBlack.color = colorAt true 1 ∧ freshRowBlack.color = "black" ∧
    freshRowBlack.move_number = 1 ∧
    ((annotate_game envOK "g" "u" dbBlack).1 = .ok ⟨"g", 1, [blackStartRow]⟩) ∧
    blackStartRow.color = colorAt false 0 ∧ blackStartRow.color = "black" ∧
    blackStartRow.move_number = numAt false 1 0 ∧
    blackStartRow.move_number = 1 := by
  have hokW : (annotate_game envOK "g" "u" dbFresh).1 =
      .ok ⟨"g", 2, [freshRowWhite, freshRowBlack]⟩ := by
    with_unfolding_all rfl
  have hokB : (annotate_game envOK "g" "u" dbBlack).1 =
      .ok ⟨"g", 1, [blackStartRow]⟩ := by
    with_unfolding_all rfl
  have hW := color_alternation_move_number envOK "g" "u" dbFresh gFresh
    _ ⟨(true, 0), [0, 1]⟩ (by with_unfolding_all rfl) rfl rfl
    (by with_unfolding_all rfl) hokW
  have hB := color_alternation_move_number envOK "g" "u" dbBlack gBlack
    _ ⟨(false, 0), [9]⟩ (by with_unfolding_all rfl) rfl rfl
    (by with_unfolding_all rfl) hokB
  have hW0 := hW 0 (by decide)
  have hW1 := hW 1 (by decide)
  have hB0 := hB 0 (by decide)
  exact ⟨hokW, hW0.1, (hW0.2.2 rfl).1, (hW0.2.2 rfl).2, hW1.1, (hW1.2.2 rfl).1,
    (hW1.2.2 rfl).2, hokB, hB0.1, hB0.1, hB0.2.1, hB0.2.1⟩

/-- C2 counterexample: with a persistence layer whose second row insert
raises, `annotate_game` on a fresh two-ply game persists exactly one of the
two rows — a partial AnnotationSet, with the `analyzed` flag still false and
the call surfacing as a 500 — refuting "complete or absent, never partial"
for arbitrary executions.  The source inserts rows one at a time in a loop
(lines 312-313) instead of one all-or-nothing bulk write. -/
theorem insert_failure_partial_set_counterexample :
    errStatus (annotate_game envInsFail "g" "u" dbFresh).1 = some 500 ∧
    (annsFor (annotate_game envInsFail "g" "u" dbFresh).2.1 "g").length = 1 ∧
    ((envInsFail.read_game "P").map (fun pg => pg.mainline.length)) = some 2 ∧
    gameFlag (annotate_game envInsFail "g" "u" dbFresh).2.1 "g" = some false := by
  refine ⟨by with_unfolding_all rfl, by with_unfolding_all rfl,
    by with_unfolding_all rfl, by with_unfolding_all rfl⟩

/-- C2 (amended): an evaluation-engine failure on any ply aborts the whole
game with the database (rows and flag alike) completely untouched, and the
`analyzed` flag ends up true only when every one of the game's rows — one
per ply of the parsed mainline — has been written; partial persistence can
arise only from a failure of the row-insert loop itself. -/
theorem annotate_game_atomicity_amended {B M : Type} (env : Env B M)
    (gid uid : String) (db : DB) (g : GameRec) (pg : ParsedGame B M)
    (hfind : findGame db gid = some g) (hown : g.user_id = uid)
    (hana : g.analyzed = false)
    (hrd : env.read_game
      ((if strTruthy g.pgn then g.pgn else g.moves_only).getD "") = some pg) :
    ((∃ e, (annotateMoves env.lib env.evaluate_position gid pg.mainline
        pg.startBoard 1).1 = .error e) →
      (annotate_game env gid uid db).2.1 = db) ∧
    (gameFlag (annotate_game env gid uid db).2.1 gid = some true →
      (annsFor ((annotate_game env gid uid db).2.1) gid).length =
        (annsFor db gid).length + pg.mainline.length) := by
  constructor
  · rintro ⟨e, he⟩
    rw [annotate_game_db]
    exact annotate_body_loop_err env gid uid db g pg e hfind hown hana hrd he
  · intro hflag
    rw [annotate_game_db] at hflag ⊢
    rcases hb : annotate_body env gid uid db with ⟨res, db2, tr⟩
    rw [hb] at hflag
    dsimp only at hflag ⊢
    cases res with
    | error e =>
      exfalso
      rcases annotate_body_games_shape env gid uid db with hsh | ⟨⟨resp, hok⟩, hsh, -⟩
      · rw [hb] at hsh
        dsimp only at hsh
        have hfg : findGame db2 gid = some g := by
          unfold findGame
          rw [hsh]
          exact hfind
        rw [gameFlag, hfg] at hflag
        simp [hana] at hflag
      · rw [hb] at hok
        simp at hok
    | ok resp =>
      have hbody : annotate_body env gid uid db = (.ok resp, db2, tr) := hb
      obtain ⟨pg', recs, hrd', hloop, hupd, hresp, hdb⟩ :=
        annotate_body_fresh_ok env gid uid db g resp db2 tr hfind hown hana hbody
      have hpg : pg = pg' := by
        rw [hrd] at hrd'
        injection hrd'
      subst hpg
      subst hdb
      obtain ⟨hlen, hmem⟩ := annotateMoves_ok_mem env.lib env.evaluate_position gid
        pg.mainline pg.startBoard 1 recs hloop
      show (List.filter (fun a => a.game_id == gid) (db.annotations ++ recs)).length = _
      rw [List.filter_append]
      have hfr : List.filter (fun a => a.game_id == gid) recs = recs :=
        List.filter_eq_self.2 (fun r hr => beq_iff_eq.2 ((hmem r hr).1))
      rw [hfr, List.length_append, hlen]
      rfl

/-- Witness for the amended C2: with the failing engine the two-ply game
leaves the database untouched, and with the healthy collaborators the
`analyzed` flag ends up true with exactly the game's two rows persisted. -/
theorem annotate_game_atomicity_amended_witness :
    ((annotate_game envEvalFail "g" "u" dbFresh).2.1 = dbFresh) ∧
    (gameFlag (annotate_game envOK "g" "u" dbFresh).2.1 "g" = some true) ∧
    ((annsFor (annotate_game envOK "g" "u" dbFresh).2.1 "g").length =
      (annsFor dbFresh "g").length + 2) := by
  have h1 := annotate_game_atomicity_amended envEvalFail "g" "u" dbFresh gFresh
    ⟨(true, 0), [0, 1]⟩ (by with_unfolding_all rfl) rfl rfl (by with_unfolding_all rfl)
  have h2 := annotate_game_atomicity_amended envOK "g" "u" dbFresh gFresh
    ⟨(true, 0), [0, 1]⟩ (by with_unfolding_all rfl) rfl rfl (by with_unfolding_all rfl)
  have hflag : gameFlag (annotate_game envOK "g" "u" dbFresh).2.1 "g" = some true := by
    with_unfolding_all rfl
  refine ⟨h1.1 ⟨.engine "b1", by with_unfolding_all rfl⟩, hflag, ?_⟩
  have hcount := h2.2 hflag
  simpa using hcount

/-- C5 (observed behavior): the `except Exception` at the end of
`annotate_game` also catches the route's own `HTTPException`s — FastAPI's
`HTTPException` is a subclass of `Exception` — so a missing game, a
non-owner request and a record with no move text all surface to the caller
as HTTP 500 (`"Error annotating game: <str(e)>"`), not as the 404 / 403 /
400 the route builds internally.  No database writes happen on any of these
paths. -/
theorem annotate_game_error_statuses_observed :
    ((annotate_game envOK "missing" "u" dbNoPgn).1 =
      .error (.http 500 ("Error annotating game: " ++
        (PyErr.http 404 "Game not found").msg))) ∧
    ((annotate_game envOK "missing" "u" dbNoPgn).2.1 = dbNoPgn) ∧
    ((annotate_game envOK "g" "intruder" dbNoPgn).1 =
      .error (.http 500 ("Error annotating game: " ++
        (PyErr.http 403 "Unauthorized access to this game").msg))) ∧
    ((annotate_game envOK "g" "intruder" dbNoPgn).2.1 = dbNoPgn) ∧
    ((annotate_game envOK "ge" "u" dbNoPgn).1 =
      .error (.http 500 ("Error annotating game: " ++
        (PyErr.http 400 "Game does not contain valid PGN data").msg))) ∧
    ((annotate_game envOK "ge" "u" dbNoPgn).2.1 = dbNoPgn) := by
  refine ⟨by with_unfolding_all rfl, by with_unfolding_all rfl,
    by with_unfolding_all rfl, by with_unfolding_all rfl,
    by with_unfolding_all rfl, by with_unfolding_all rfl⟩

/-- C6: the batch route fails only when the candidate listing fails (it then
surfaces as a 500); otherwise it always succeeds — an empty candidate set
yields count 0 and an empty list, not an error — returning exactly the ids
collected by the per-game loop, with the count equal to the length of that
list.  The per-game loop catches a failing game's exception, omits that game
and continues with the remaining candidates from whatever database state the
failed call left behind, while a successful game contributes its id in
order. -/
theorem process_unannotated_batch_isolation {B M : Type} (env : Env B M)
    (limit : Nat) (uid : String) (db : DB) :
    (env.listFail = true →
      errStatus (process_unannotated_games env limit uid db).1 = some 500) ∧
    (env.listFail = false →
      ∃ resp, (process_unannotated_games env limit uid db).1 = .ok resp ∧
        resp.processed_games = resp.game_ids.length ∧
        resp.game_ids = (processLoop env uid (batchCandidates db limit) db).1 ∧
        (batchCandidates db limit = [] → resp = ⟨0, []⟩)) ∧
    (∀ gid rest dbc e, (annotate_game env gid uid dbc).1 = .error e →
      processLoop env uid (gid :: rest) dbc =
        processLoop env uid rest (annotate_game env gid uid dbc).2.1) ∧
    (∀ gid rest dbc r, (annotate_game env gid uid dbc).1 = .ok r →
      (processLoop env uid (gid :: rest) dbc).1 =
        gid :: (processLoop env uid rest (annotate_game env gid uid dbc).2.1).1) := by
  refine ⟨?_, ?_, ?_, ?_⟩
  · intro h
    unfold process_unannotated_games
    rw [h]
    rfl
  · intro h
    unfold process_unannotated_games
    rw [h]
    rw [if_neg Bool.false_ne_true]
    dsimp only
    by_cases hc : batchCandidates db limit = []
    · rw [if_pos (by rw [hc]; rfl)]
      refine ⟨⟨0, []⟩, rfl, rfl, ?_, fun _ => rfl⟩
      rw [hc]
      rfl
    · rw [if_neg (by simpa [List.isEmpty_iff] using hc)]
      rcases hpl : processLoop env uid (batchCandidates db limit) db with ⟨ids, db'⟩
      exact ⟨⟨ids.length, ids⟩, rfl, rfl, rfl, fun hcon => absurd hcon hc⟩
  · intro gid rest dbc e ha
    rw [processLoop]
    rcases hag : annotate_game env gid uid dbc with ⟨res, db', tr⟩
    rw [hag] at ha
    dsimp only at ha
    subst ha
    rfl
  · intro gid rest dbc r ha
    rw [processLoop]
    rcases hag : annotate_game env gid uid dbc with ⟨res, db', tr⟩
    rw [hag] at ha
    dsimp only at ha
    subst ha
    dsimp only

/-- Witness for C6: on three candidate games whose middle PGN is
unparseable, the batch reports count 2 with the ids of games 1 and 3, game 2
stays unanalyzed; a failing listing surfaces as 500; an empty database
yields count 0 and no ids. -/
theorem process_unannotated_batch_isolation_witness :
    ((process_unannotated_games envOK 3 "u" dbBatch).1 = .ok ⟨2, ["g1", "g3"]⟩) ∧
    gameFlag (process_unannotated_games envOK 3 "u" dbBatch).2 "g2" = some false ∧
    errStatus (process_unannotated_games envListFail 3 "u" dbBatch).1 = some 500 ∧
    ((process_unannotated_games envOK 3 "u" (DB.mk [] [])).1 = .ok ⟨0, []⟩) := by
  have h2 := process_unannotated_batch_isolation envListFail 3 "u" dbBatch
  have h3 := process_unannotated_batch_isolation envOK 3 "u" (DB.mk [] [])
  refine ⟨by with_unfolding_all rfl, by with_unfolding_all rfl, h2.1 rfl, ?_⟩
  obtain ⟨resp, hresp, -, -, hemp⟩ := h3.2.1 rfl
  rw [hresp, hemp rfl]

/-- The invariant holds reflexively. -/
theorem OwnerInv_refl (uid : String) (db : DB) : OwnerInv uid db db := by
  intro gid
  cases h : findGame db gid with
  | none => exact Or.inl ⟨rfl, rfl⟩
  | some a => exact Or.inr ⟨a, a, rfl, rfl, rfl, rfl, fun _ => rfl⟩

/-- Looking a game up after `setAnalyzed` returns the same row as before,
with its flag forced to true exactly when its id is the updated one. -/
theorem filter_head_setAnalyzed (l : List GameRec) (gid gid' : String) :
    ((setAnalyzed l gid).filter (fun g => g.id == gid')).head? =
      ((l.filter (fun g => g.id == gid')).head?).map
        (fun g => if g.id == gid then { g with analyzed := true } else g) := by
  induction l with
  | nil => rfl
  | cons a t ih =>
    have hfid : (if a.id == gid then { a with analyzed := true } else a).id = a.id := by
      split <;> rfl
    show ((((if a.id == gid then { a with analyzed := true } else a)) ::
        setAnalyzed t gid).filter (fun g => g.id == gid')).head? = _
    rw [List.filter_cons, List.filter_cons, hfid]
    cases hid : (a.id == gid') with
    | true =>
      rw [if_pos rfl, if_pos rfl]
      rfl
    | false =>
      rw [if_neg (by simp), if_neg (by simp)]
      exact ih

/-- One `annotate_game` call preserves the ownership invariant: it either
leaves the `games` table alone, or — only when its game was found owned by
the requester — sets that game's flag. -/
theorem OwnerInv_step {B M : Type} (env : Env B M) (gid uid : String)
    (db0 dbc : DB) (hinv : OwnerInv uid db0 dbc) :
    OwnerInv uid db0 (annotate_game env gid uid dbc).2.1 := by
  intro gid'
  rw [annotate_game_db]
  rcases annotate_body_games_shape env gid uid dbc with hsh | ⟨-, hsh, g, hg, hgu⟩
  · have heq : findGame (annotate_body env gid uid dbc).2.1 gid' = findGame dbc gid' := by
      unfold findGame
      rw [hsh]
    rw [heq]
    exact hinv gid'
  · have heq : findGame (annotate_body env gid uid dbc).2.1 gid' =
        (findGame dbc gid').map
          (fun g => if g.id == gid then { g with analyzed := true } else g) := by
      unfold findGame
      rw [hsh]
      exact filter_head_setAnalyzed dbc.games gid gid'
    rw [heq]
    rcases hinv gid' with ⟨h0, hc⟩ | ⟨a, b, ha, hb, hid, huser, hflagp⟩
    · exact Or.inl ⟨h0, by rw [hc]; rfl⟩
    · right
      refine ⟨a, (if b.id == gid then { b with analyzed := true } else b), ha,
        by rw [hb]; rfl, ?_, ?_, ?_⟩
      · split
        · exact hid
        · exact hid
      · split
        · exact huser
        · exact huser
      · intro hne
        by_cases hbid : (b.id == gid) = true
        · exfalso
          have hbgid' : b.id = gid' := by
            have hmem : b ∈ dbc.games.filter (fun g => g.id == gid') := by
              apply List.mem_of_mem_head?
              rw [show (dbc.games.filter (fun g => g.id == gid')).head? = some b from hb]
              rfl
            simpa using List.of_mem_filter hmem
          have hgg : gid' = gid := by
            rw [← hbgid']
            simpa using hbid
          subst hgg
          rw [hb] at hg
          injection hg with hbg
          exact hne (by rw [← huser, hbg, hgu])
        · rw [if_neg hbid]
          exact hflagp hne

/-- The batch loop preserves the ownership invariant and only reports games
that exist in the starting database and are owned by the requester. -/
theorem processLoop_owner {B M : Type} (env : Env B M) (uid : String) (db0 : DB) :
    ∀ (cands : List String) (dbc : DB), OwnerInv uid db0 dbc →
      OwnerInv uid db0 (processLoop env uid cands dbc).2 ∧
      ∀ gid ∈ (processLoop env uid cands dbc).1,
        ∃ g, findGame db0 gid = some g ∧ g.user_id = uid := by
  intro cands
  induction cands with
  | nil =>
    intro dbc hinv
    exact ⟨hinv, by simp [processLoop]⟩
  | cons gid rest ih =>
    intro dbc hinv
    rw [processLoop]
    rcases hag : annotate_game env gid uid dbc with ⟨res, db', tr⟩
    have hinv' : OwnerInv uid db0 db' := by
      have hstep := OwnerInv_step env gid uid db0 dbc hinv
      rw [hag] at hstep
      exact hstep
    cases res with
    | error e =>
      dsimp only
      exact ih db' hinv'
    | ok r =>
      dsimp only
      obtain ⟨h1, h2⟩ := ih db' hinv'
      rcases hpl : processLoop env uid rest db' with ⟨ids, db''⟩
      rw [hpl] at h1 h2
      refine ⟨h1, ?_⟩
      intro gid0 hg0
      rcases List.mem_cons.1 hg0 with rfl | hg0
      · have hok1 : (annotate_game env gid0 uid dbc).1 = .ok r := by rw [hag]
        have hbody := annotate_game_ok_body env gid0 uid dbc r hok1
        obtain ⟨g, hgf, hgu⟩ := annotate_body_ok_owner env gid0 uid dbc r (by rw [hbody])
        rcases hinv gid0 with ⟨-, h0c⟩ | ⟨a, b, ha2, hb2, _, huser, _⟩
        · rw [h0c] at hgf
          cases hgf
        · rw [hb2] at hgf
          injection hgf with hbg
          exact ⟨a, ha2, by rw [← huser, hbg, hgu]⟩
      · exact h2 gid0 hg0

/-- C10: with a healthy candidate listing, the batch route reports only
games that exist in the starting database and are owned by the requester
(the per-game 403 — re-wrapped as 500 — is caught at the batch boundary and
the game omitted), and every game owned by someone else keeps its `analyzed`
flag unchanged; the count is the length of the reported id list. -/
theorem batch_only_owner_games_succeed {B M : Type} (env : Env B M) (limit : Nat)
    (uid : String) (db : DB) (hlist : env.listFail = false) :
    ∃ resp, (process_unannotated_games env limit uid db).1 = .ok resp ∧
      resp.processed_games = resp.game_ids.length ∧
      (∀ gid ∈ resp.game_ids, ∃ g, findGame db gid = some g ∧ g.user_id = uid) ∧
      (∀ gid g, findGame db gid = some g → g.user_id ≠ uid →
        gid ∉ resp.game_ids ∧
        ∃ g2, findGame (process_unannotated_games env limit uid db).2 gid = some g2 ∧
          g2.analyzed = g.analyzed) := by
  unfold process_unannotated_games
  rw [hlist]
  rw [if_neg Bool.false_ne_true]
  dsimp only
  by_cases hc : (batchCandidates db limit).isEmpty = true
  · rw [if_pos hc]
    refine ⟨⟨0, []⟩, rfl, rfl, by simp, ?_⟩
    intro gid g hg hne
    exact ⟨by simp, g, hg, rfl⟩
  · rw [if_neg hc]
    obtain ⟨hinv', howner⟩ := processLoop_owner env uid db (batchCandidates db limit) db
      (OwnerInv_refl uid db)
    rcases hpl : processLoop env uid (batchCandidates db limit) db with ⟨ids, db'⟩
    rw [hpl] at hinv' howner
    refine ⟨⟨ids.length, ids⟩, rfl, rfl, howner, ?_⟩
    intro gid g hg hne
    constructor
    · intro hmem
      obtain ⟨g2, hg2, hgu2⟩ := howner gid hmem
      rw [hg] at hg2
      injection hg2 with hginj
      exact hne (by rw [hginj]; exact hgu2)
    · rcases hinv' gid with ⟨h0, _⟩ | ⟨a, b, ha, hb, _, _, hflagp⟩
      · rw [hg] at h0
        cases h0
      · rw [hg] at ha
        injection ha with ha2
        refine ⟨b, hb, ?_⟩
        rw [hflagp (by rw [← ha2]; exact hne), ha2]

/-- Witness for C10: two candidate games, one owned by `"u"` and one by
`"v"`; the batch by `"u"` reports only the owned game, and the foreign
game's flag stays false. -/
theorem batch_only_owner_games_succeed_witness :
    ((process_unannotated_games envOK 2 "u" dbOwners).1 = .ok ⟨1, ["g1"]⟩) ∧
    ("g2" ∈ (["g1"] : List String) → False) ∧
    gameFlag (process_unannotated_games envOK 2 "u" dbOwners).2 "g2" = some false := by
  have h := batch_only_owner_games_succeed envOK 2 "u" dbOwners rfl
  obtain ⟨resp, hresp, hcount, howner, hnon⟩ := h
  have hconc : (process_unannotated_games envOK 2 "u" dbOwners).1 = .ok ⟨1, ["g1"]⟩ := by
    with_unfolding_all rfl
  have hr : resp = ⟨1, ["g1"]⟩ := by
    rw [hconc] at hresp
    injection hresp with h1
    exact h1.symm
  subst hr
  obtain ⟨hout, -⟩ := hnon "g2" ⟨"g2", "v", some "P", none, false⟩
    (by with_unfolding_all rfl) (by decide)
  exact ⟨hconc, fun hmem => hout hmem, by with_unfolding_all rfl⟩

end KnightVision
